import Mathlib

/-!
Verification of the job-application progression engine of `src/app.py`
(Swiss Assistenzarzt job application bot).

The Python source is shallowly embedded: pandas CSV cells that may be
missing or non-string (NaN) are `Option String`; the Firestore document
plus the Streamlit session state are bundled into one `AppState` record;
the external mail sender and translator are oracles passed as parameters.
-/

/-- A row of the job CSV. Each field models `row.get(column)`: `none` is a
missing or non-string (NaN) cell, `some s` a string cell. -/
structure CsvRow where
  job_title : Option String
  hospital_name : Option String
  canton : Option String
  application_contact_email : Option String
  job_description : Option String
deriving Repr, DecidableEq

/-- The per-user counters stored at `stats` in the Firestore document. -/
structure Stats where
  sent_count : Nat
  skipped_count : Nat
deriving Repr, DecidableEq

/-- One document of the `sent_emails` sub-collection, as written by
`save_sent_email` (the `sent_at` server timestamp is omitted). -/
structure SentEmailRecord where
  recipient : String
  subject : String
  body : String
  job_title : String
deriving Repr, DecidableEq

/-- An attachment as stored in the user document: file name plus
base64-encoded content. -/
structure Attachment where
  name : String
  content_b64 : String
deriving Repr, DecidableEq

/-- A generated or manual email draft: `{subject, body}` as returned by
`generate_personalized_email`. -/
structure EmailContent where
  subject : String
  body : String
deriving Repr, DecidableEq

/-- `st.session_state.current_job_details` as built in `render_job_finder`
(lines 225-230 of `src/app.py`). -/
structure JobDetails where
  job_id : Nat
  job_title : String
  hospital_name : String
  canton : String
  contact_email : String
  job_description : String
deriving Repr, DecidableEq

/-- The user-visible state: the Firestore user document (`applied_jobs`,
`stats`, `sent_emails`, `attachments`) together with the Streamlit session
fields the engine manipulates. -/
structure AppState where
  applied_jobs : List String
  stats : Stats
  sent_emails : List SentEmailRecord
  attachments : List Attachment
  current_job_id : Option Nat
  current_job_details : Option JobDetails
  generated_email_content : Option EmailContent
  manual_email_content : Option EmailContent
deriving Repr, DecidableEq

/-- Python `isinstance(cell, str) and "@" in cell`: the contact-email cell
is a string whose characters include `@` (line 216 of `src/app.py`). -/
def emailOk (cell : Option String) : Bool :=
  match cell with
  | some s => s.toList.contains '@'
  | none => false

/-- The selection predicate of the `next(...)` scan in `render_job_finder`
line 216: `str(idx) not in applied_jobs and isinstance(cell, str) and
"@" in cell`. -/
def selectable (applied : List String) (idx : Nat) (row : CsvRow) : Bool :=
  !(applied.contains (toString idx)) && emailOk row.application_contact_email

/-- `selectNext`: the linear scan of `render_job_finder` line 216, over
`jobs_df.iterrows()` (modelled by `List.enum`, pairing each row with its
index, which is the job id). -/
def selectNext (applied : List String) (catalog : List CsvRow) : Option (Nat × CsvRow) :=
  catalog.enum.find? (fun p => selectable applied p.1 p.2)

/-- Firestore `ArrayUnion([x])`: append `x` unless already present. -/
def arrayUnion (l : List String) (x : String) : List String :=
  if x ∈ l then l else l ++ [x]

theorem mem_arrayUnion_self (l : List String) (x : String) : x ∈ arrayUnion l x := by
  unfold arrayUnion
  by_cases h : x ∈ l
  · rw [if_pos h]; exact h
  · rw [if_neg h]; exact List.mem_append_right l (List.mem_singleton.mpr rfl)

theorem selectable_not_applied {applied : List String} {idx : Nat} {row : CsvRow}
    (h : selectable applied idx row = true) : toString idx ∉ applied := by
  unfold selectable at h
  intro hmem
  rw [Bool.and_eq_true, Bool.not_eq_true'] at h
  have : (applied.contains (toString idx)) = true := List.elem_eq_true_of_mem hmem
  rw [h.1] at this
  exact Bool.false_ne_true this

theorem selectable_emailOk {applied : List String} {idx : Nat} {row : CsvRow}
    (h : selectable applied idx row = true) :
    emailOk row.application_contact_email = true := by
  unfold selectable at h
  rw [Bool.and_eq_true] at h
  exact h.2

/-- If the string form of an index is in the applied set, the scan never
returns a pair carrying that index. -/
theorem selectNext_ne_of_applied {applied : List String} {catalog : List CsvRow}
    {pr : Nat × CsvRow} (hsel : selectNext applied catalog = some pr)
    {i : Nat} (hmem : toString i ∈ applied) : pr.1 ≠ i := by
  have hp := List.find?_some hsel
  intro hEq
  exact selectable_not_applied hp (hEq ▸ hmem)

/-- Characterization of the scan result: it is the entry at its own index,
it is selectable, and every earlier index is not selectable. -/
theorem selectNext_eq_some_iff {applied : List String} {catalog : List CsvRow}
    {i : Nat} {x : CsvRow} :
    selectNext applied catalog = some (i, x) ↔
      selectable applied i x = true ∧
      ∃ h : i < catalog.length, catalog[i] = x ∧
        ∀ j, (hj : j < i) → selectable applied j catalog[j] = false := by
  unfold selectNext
  rw [List.find?_eq_some_iff_getElem]
  constructor
  · rintro ⟨hp, k, hk, hget, hbefore⟩
    rw [List.enum_length] at hk
    have hgk : catalog.enum[k] = (k, catalog[k]) := List.getElem_enum ..
    rw [hgk] at hget
    obtain ⟨hik, hx⟩ := Prod.mk.injEq .. ▸ hget
    subst hik
    refine ⟨hx ▸ hp, hk, hx, ?_⟩
    intro j hj
    have hj' : j < catalog.enum.length := by rw [List.enum_length]; omega
    have h2 := hbefore j hj
    rw [List.getElem_enum] at h2
    simp only [Bool.not_eq_true'] at h2
    exact h2
  · rintro ⟨hp, hk, hx, hbefore⟩
    refine ⟨hp, i, by rw [List.enum_length]; exact hk, ?_, ?_⟩
    · rw [List.getElem_enum]
      exact congrArg _ hx
    · intro j hj
      have hj' : j < catalog.length := by omega
      rw [List.getElem_enum]
      simpa using hbefore j hj

/-- Python `str()` of a CSV cell: a string cell is itself; a missing or
NaN cell prints as `nan` (line 228 applies `str(...)` to the raw cell). -/
def pyStr (cell : Option String) : String :=
  match cell with
  | some s => s
  | none => "nan"

/-- Python `s.strip()`: drop whitespace characters from both ends. -/
def pyStrip (s : String) : String :=
  String.mk (((s.toList.dropWhile Char.isWhitespace).reverse.dropWhile
    Char.isWhitespace).reverse)

/-- Python `s[:n]`: the first `n` characters of `s`. -/
def pyTake (s : String) (n : Nat) : String :=
  String.mk (s.toList.take n)

/-- Python `s.split(",")[0]`: the longest prefix of `s` containing no
comma (line 228). -/
def firstCommaField (s : String) : String :=
  String.mk (s.toList.takeWhile (fun c => c != ','))

/-- Lines 225-230 of `src/app.py`: the `current_job_details` dict built
from the selected row; the prefilled recipient `contact_email` is
`str(cell).strip().split(",")[0]`. -/
def mkDetails (idx : Nat) (row : CsvRow) : JobDetails :=
  { job_id := idx
    job_title := row.job_title.getD "N/A"
    hospital_name := row.hospital_name.getD ""
    canton := row.canton.getD ""
    contact_email := firstCommaField (pyStrip (pyStr row.application_contact_email))
    job_description := row.job_description.getD "" }

/-- One pass of `render_job_finder` (lines 216-231) before any button
press: run the selection scan and, when the selection changed, point the
session at the new job and reset the generated draft. -/
def renderJobFinderStep (s : AppState) (catalog : List CsvRow) : AppState :=
  match selectNext s.applied_jobs catalog with
  | none => s
  | some (idx, row) =>
      if s.current_job_id = some idx then s
      else { s with current_job_id := some idx
                    generated_email_content := none
                    current_job_details := some (mkDetails idx row) }

/-- The two Firestore writes issued by the Skip button (lines 242-243):
first a set-merge with `ArrayUnion([str(job_id)])` on `applied_jobs`,
then a separate `update` with `Increment(1)` on `stats.skipped_count`. -/
inductive SkipWrite where
  | unionAppliedJobs (id : String)
  | incSkippedCount (n : Nat)
deriving Repr, DecidableEq

/-- The sequence of store writes the Skip handler performs, in order. -/
def skipWriteSeq (details : JobDetails) : List SkipWrite :=
  [SkipWrite.unionAppliedJobs (toString details.job_id),
   SkipWrite.incSkippedCount 1]

/-- Effect of one persisted write on the user document. -/
def applySkipWrite (s : AppState) : SkipWrite → AppState
  | SkipWrite.unionAppliedJobs i => { s with applied_jobs := arrayUnion s.applied_jobs i }
  | SkipWrite.incSkippedCount n =>
      { s with stats := { s.stats with skipped_count := s.stats.skipped_count + n } }

/-- Effect of a sequence of persisted writes, applied left to right. -/
def applySkipWrites (s : AppState) (ws : List SkipWrite) : AppState :=
  ws.foldl applySkipWrite s

/-- The Skip button handler (lines 241-244): both store writes, then the
session's current job id is cleared. -/
def skip (s : AppState) (details : JobDetails) : AppState :=
  { applySkipWrites s (skipWriteSeq details) with current_job_id := none }

/-- The job a send form is about: a catalog job with its
`current_job_details`, or a manual job whose details dict need not carry
a catalog id or title. -/
inductive FormJob where
  | catalog (details : JobDetails)
  | manual (job_title : Option String)
deriving Repr, DecidableEq

/-- Python `details.get('job_title', 'Manual')` at line 269. -/
def formJobTitle : FormJob → String
  | FormJob.catalog d => d.job_title
  | FormJob.manual t => t.getD "Manual"

/-- Outcome of the send-button handler. -/
inductive CommitStatus where
  | noAttachment
  | sendFailed
  | sent
deriving Repr, DecidableEq

/-- Result of the send-button handler: its outcome, the resulting state,
and whether `send_email_logic` (the Gmail call) was invoked at all. -/
structure CommitResult where
  status : CommitStatus
  state : AppState
  mail_invoked : Bool
deriving Repr, DecidableEq

/-- The send-button handler of `render_application_form`
(lines 263-277): reject when the attachment list is empty, without
calling the mail sender; otherwise invoke the sender (its success is the
oracle `mailOk`); on success append the sent-email record and, for a
catalog job, union `str(job_id)` into `applied_jobs`, increment
`stats.sent_count` and clear the current job id, while for a manual job
only the manual draft is cleared. On send failure nothing changes. -/
def commitSend (s : AppState) (job : FormJob) (to_email subject body : String)
    (mailOk : Bool) : CommitResult :=
  if s.attachments.isEmpty then
    { status := CommitStatus.noAttachment, state := s, mail_invoked := false }
  else if mailOk then
    let s1 : AppState := { s with sent_emails := s.sent_emails ++
                  [{ recipient := to_email, subject := subject, body := body,
                     job_title := formJobTitle job }] }
    match job with
    | FormJob.catalog d =>
        { status := CommitStatus.sent
          state := { s1 with
            applied_jobs := arrayUnion s1.applied_jobs (toString d.job_id)
            stats := { s1.stats with sent_count := s1.stats.sent_count + 1 }
            current_job_id := none }
          mail_invoked := true }
    | FormJob.manual _ =>
        { status := CommitStatus.sent
          state := { s1 with manual_email_content := none }
          mail_invoked := true }
  else
    { status := CommitStatus.sendFailed, state := s, mail_invoked := true }

/-- Does a character sequence contain three consecutive bars? -/
def tripleBar : List Char → Bool
  | '|' :: '|' :: '|' :: _ => true
  | _ :: rest => tripleBar rest
  | [] => false

/-- Python `'|||' in response` (line 125): the response contains the
substring made of three bar characters. -/
def hasDelim (r : String) : Bool :=
  tripleBar r.toList

/-- Lines 124-130 of `generate_personalized_email`: parse the composer
response into `{subject, body}`. `none` models a `None` response from
`call_openai_api`; the guard is Python `if response and '|||' in
response`, and the fallback body is `response or "Could not generate
email body."`. -/
def parseComposerResult (response : Option String) : EmailContent :=
  match response with
  | some r =>
      if r ≠ "" ∧ hasDelim r then
        { subject := (((r.splitOn "|||").getD 0 "").replace "Subject:" "").trim
          body := (((r.splitOn "|||").getD 1 "").replace "Body:" "").trim }
      else
        { subject := "Bewerbung für die ausgeschriebene Position"
          body := if r = "" then "Could not generate email body." else r }
  | none =>
      { subject := "Bewerbung für die ausgeschriebene Position"
        body := "Could not generate email body." }

/-- Python `any(char in 'àéâç' for char in text)` (line 314). -/
def hasAccentChar (text : String) : Bool :=
  text.toList.any (fun c => ("àéâç".toList).contains c)

/-- Lines 312-317 of `process_and_save_files`: classify the extracted CV
text. `translate` is the translation collaborator (`translate_cv_text`),
which may fail (`none` models Python `None`); `raw` is the result of
`extract_text_from_pdf` (`none` models `None` on extraction error).
`cv_text` starts as `""` and is only reassigned when `raw` is truthy. -/
def classifyCvText (translate : String → Option String) (raw : Option String) :
    Option String :=
  match raw with
  | some r =>
      if r = "" then some ""
      else if hasAccentChar (pyTake r 500) then some r
      else translate r
  | none => some ""

/-! Concrete sample data, mirroring the scenario of spec section 8:
three catalog rows, the second with an empty contact cell, the third with
a comma-separated contact list. -/

/-- Sample row 0: valid contact email. -/
def exRow0 : CsvRow :=
  { job_title := some "Assistenzarzt Chirurgie", hospital_name := some "USZ",
    canton := some "ZH", application_contact_email := some "a@x.ch",
    job_description := some "d0" }

/-- Sample row 1: empty contact cell, never selectable. -/
def exRow1 : CsvRow :=
  { job_title := some "Assistenzarzt Innere", hospital_name := some "Inselspital",
    canton := some "BE", application_contact_email := some "",
    job_description := some "d1" }

/-- Sample row 2: comma-separated contact list. -/
def exRow2 : CsvRow :=
  { job_title := some "Assistenzarzt Paediatrie", hospital_name := some "HUG",
    canton := some "GE", application_contact_email := some "b@y.ch, c@z.ch",
    job_description := some "d2" }

/-- Sample catalog. -/
def exCatalog : List CsvRow := [exRow0, exRow1, exRow2]

/-- A fresh user state with one attachment and nothing applied. -/
def exState : AppState :=
  { applied_jobs := [], stats := { sent_count := 0, skipped_count := 0 },
    sent_emails := [],
    attachments := [{ name := "cv.pdf", content_b64 := "QUJD" }],
    current_job_id := none, current_job_details := none,
    generated_email_content := none, manual_email_content := none }

/-- The same state with the attachment list emptied. -/
def exStateNoAtt : AppState := { exState with attachments := [] }

/-- The session details of sample job 0. -/
def exDetails : JobDetails := mkDetails 0 exRow0

/-- C1: `selectNext` returns the first posting in catalog order whose id
(string form) is not in the applied set and whose contact-email cell is a
string containing an `@`; it returns `none` exactly when no such posting
exists; a posting whose cell is missing, non-string, empty or without `@`
is never returned; and two consecutive calls on an unchanged profile and
catalog return the same result. -/
theorem selectNext_first_valid (applied : List String) (catalog : List CsvRow) :
    (∀ i x, selectNext applied catalog = some (i, x) →
      (toString i ∉ applied ∧ emailOk x.application_contact_email = true) ∧
      ∃ h : i < catalog.length, catalog[i] = x ∧
        ∀ j, (hj : j < i) → selectable applied j catalog[j] = false) ∧
    (selectNext applied catalog = none ↔
      ∀ i, (h : i < catalog.length) → selectable applied i catalog[i] = false) ∧
    (∀ i x, emailOk x.application_contact_email = false →
      selectNext applied catalog ≠ some (i, x)) ∧
    selectNext applied catalog = selectNext applied catalog := by
  refine ⟨?_, ?_, ?_, rfl⟩
  · intro i x hsel
    obtain ⟨hp, hlen, hx, hbefore⟩ := selectNext_eq_some_iff.mp hsel
    exact ⟨⟨selectable_not_applied hp, selectable_emailOk hp⟩, hlen, hx, hbefore⟩
  · unfold selectNext
    rw [List.find?_eq_none, List.forall_mem_enum]
    constructor
    · intro h i hi
      have := h i hi
      simpa using this
    · intro h pr hpr
      simpa using h pr hpr
  · intro i x hbad hsel
    obtain ⟨hp, _⟩ := selectNext_eq_some_iff.mp hsel
    rw [selectable_emailOk hp] at hbad
    exact Bool.noConfusion hbad

/-- Witness for C1 at the sample catalog: the scan picks job 0, whose id
is not applied and whose contact cell contains an `@`. -/
theorem selectNext_first_valid_witness :
    selectNext [] exCatalog = some (0, exRow0) ∧
    toString 0 ∉ ([] : List String) ∧
    emailOk exRow0.application_contact_email = true :=
  have hsel : selectNext [] exCatalog = some (0, exRow0) := by decide
  ⟨hsel, ((selectNext_first_valid [] exCatalog).1 0 exRow0 hsel).1⟩

/-- C2: a successful catalog-job send appends exactly one sent record,
adds `str(job_id)` to the applied set, increments `sent_count` by exactly
one, clears the current selection (so no job is in the drafted state, and
the next finder pass over any catalog resets the generated draft whenever
it selects a job), and the job index can never be selected again from the
resulting state. -/
theorem commitSend_catalog_success (s : AppState) (d : JobDetails)
    (to_email subject body : String) (hatt : s.attachments ≠ []) :
    (commitSend s (FormJob.catalog d) to_email subject body true).status = CommitStatus.sent ∧
    (commitSend s (FormJob.catalog d) to_email subject body true).state.sent_emails =
      s.sent_emails ++ [{ recipient := to_email, subject := subject, body := body,
                          job_title := d.job_title }] ∧
    toString d.job_id ∈
      (commitSend s (FormJob.catalog d) to_email subject body true).state.applied_jobs ∧
    (commitSend s (FormJob.catalog d) to_email subject body true).state.stats.sent_count =
      s.stats.sent_count + 1 ∧
    (commitSend s (FormJob.catalog d) to_email subject body true).state.current_job_id = none ∧
    (∀ catalog idx row,
      selectNext (commitSend s (FormJob.catalog d) to_email subject body true).state.applied_jobs
          catalog = some (idx, row) → idx ≠ d.job_id) ∧
    (∀ catalog idx row,
      selectNext (commitSend s (FormJob.catalog d) to_email subject body true).state.applied_jobs
          catalog = some (idx, row) →
      (renderJobFinderStep
        (commitSend s (FormJob.catalog d) to_email subject body true).state
        catalog).generated_email_content = none) := by
  have hEmpty : s.attachments.isEmpty = false := List.isEmpty_eq_false.mpr hatt
  have hres : commitSend s (FormJob.catalog d) to_email subject body true =
      { status := CommitStatus.sent
        state := { s with
          sent_emails := s.sent_emails ++
            [{ recipient := to_email, subject := subject, body := body,
               job_title := d.job_title }]
          applied_jobs := arrayUnion s.applied_jobs (toString d.job_id)
          stats := { s.stats with sent_count := s.stats.sent_count + 1 }
          current_job_id := none }
        mail_invoked := true } := by
    simp [commitSend, hEmpty, formJobTitle]
  rw [hres]
  refine ⟨rfl, rfl, mem_arrayUnion_self .., rfl, rfl, ?_, ?_⟩
  · intro catalog idx row hsel
    exact selectNext_ne_of_applied hsel (mem_arrayUnion_self ..)
  · intro catalog idx row hsel
    unfold renderJobFinderStep
    rw [hsel]
    simp

/-- Witness for C2: committing the sample job from the fresh state (which
has an attachment) bumps the counter and records the applied id. -/
theorem commitSend_catalog_success_witness :
    exState.attachments ≠ [] ∧
    (commitSend exState (FormJob.catalog exDetails) "a@x.ch" "S" "B" true).state.stats.sent_count
      = exState.stats.sent_count + 1 ∧
    toString exDetails.job_id ∈
      (commitSend exState (FormJob.catalog exDetails) "a@x.ch" "S" "B" true).state.applied_jobs :=
  have hatt : exState.attachments ≠ [] := by decide
  have h := commitSend_catalog_success exState exDetails "a@x.ch" "S" "B" hatt
  ⟨hatt, h.2.2.2.1, h.2.2.1⟩

/-- C3: the send handler mutates nothing on its failure paths: with an
empty attachment list the outcome is `noAttachment`, the state is
returned unchanged and the mail sender is never invoked, whatever the
sender oracle would have answered; and when the sender reports failure
the state is returned unchanged (records, applied set, counters and
draft all preserved, so the user may retry). -/
theorem commitSend_failure_noop (s : AppState) (job : FormJob)
    (to_email subject body : String) :
    (s.attachments = [] → ∀ mailOk,
      commitSend s job to_email subject body mailOk =
        { status := CommitStatus.noAttachment, state := s, mail_invoked := false }) ∧
    (s.attachments ≠ [] →
      commitSend s job to_email subject body false =
        { status := CommitStatus.sendFailed, state := s, mail_invoked := true }) := by
  constructor
  · intro hnil mailOk
    have hEmpty : s.attachments.isEmpty = true := List.isEmpty_iff.mpr hnil
    simp [commitSend, hEmpty]
  · intro hne
    have hEmpty : s.attachments.isEmpty = false := List.isEmpty_eq_false.mpr hne
    simp [commitSend, hEmpty]

/-- Witness for C3: both failure paths at concrete states. -/
theorem commitSend_failure_noop_witness :
    exStateNoAtt.attachments = [] ∧
    commitSend exStateNoAtt (FormJob.catalog exDetails) "a@x.ch" "S" "B" true =
      { status := CommitStatus.noAttachment, state := exStateNoAtt, mail_invoked := false } ∧
    exState.attachments ≠ [] ∧
    commitSend exState (FormJob.catalog exDetails) "a@x.ch" "S" "B" false =
      { status := CommitStatus.sendFailed, state := exState, mail_invoked := true } :=
  have h1 := commitSend_failure_noop exStateNoAtt (FormJob.catalog exDetails) "a@x.ch" "S" "B"
  have h2 := commitSend_failure_noop exState (FormJob.catalog exDetails) "a@x.ch" "S" "B"
  ⟨by decide, h1.1 (by decide) true, by decide, h2.2 (by decide)⟩

/-- C4: skipping a job adds `str(job_id)` to the applied set, increments
`skipped_count` by exactly one, and the skipped index can never be
selected again from the resulting state, for any catalog. -/
theorem skip_spec (s : AppState) (d : JobDetails) (catalog : List CsvRow) :
    toString d.job_id ∈ (skip s d).applied_jobs ∧
    (skip s d).stats.skipped_count = s.stats.skipped_count + 1 ∧
    ∀ idx row, selectNext (skip s d).applied_jobs catalog = some (idx, row) →
      idx ≠ d.job_id := by
  have hmem : toString d.job_id ∈ (skip s d).applied_jobs :=
    mem_arrayUnion_self s.applied_jobs (toString d.job_id)
  refine ⟨hmem, rfl, ?_⟩
  intro idx row hsel
  exact selectNext_ne_of_applied hsel hmem

/-- Witness for C4, the section-8 scenario: after skipping job 0 the scan
returns job 2 (job 1 stays unselectable), and 2 is not the skipped id. -/
theorem skip_spec_witness :
    toString exDetails.job_id ∈ (skip exState exDetails).applied_jobs ∧
    (skip exState exDetails).stats.skipped_count = exState.stats.skipped_count + 1 ∧
    selectNext (skip exState exDetails).applied_jobs exCatalog = some (2, exRow2) ∧
    (2 : Nat) ≠ exDetails.job_id :=
  have h := skip_spec exState exDetails exCatalog
  have hsel : selectNext (skip exState exDetails).applied_jobs exCatalog = some (2, exRow2) := by
    decide
  ⟨h.1, h.2.1, hsel, h.2.2 2 exRow2 hsel⟩

/-- C5 (code evidence): the Skip handler issues two separate persisted
writes, not one transaction; applying only the first one leaves the job
id in `applied_jobs` with `skipped_count` unchanged, the inconsistent
intermediate state observable when the store fails between the two
calls; applying both gives the committed counter. -/
theorem skip_two_separate_writes :
    (skipWriteSeq exDetails).length = 2 ∧
    (applySkipWrites exState ((skipWriteSeq exDetails).take 1)).applied_jobs = ["0"] ∧
    (applySkipWrites exState ((skipWriteSeq exDetails).take 1)).stats.skipped_count =
      exState.stats.skipped_count ∧
    (applySkipWrites exState (skipWriteSeq exDetails)).stats.skipped_count =
      exState.stats.skipped_count + 1 := by
  decide

/-- C6 counterexample: a manual send that succeeds (outcome `sent`) does
not increment `stats.sent_count` — the increment at line 273 of
`src/app.py` sits inside `if not is_manual`. -/
theorem commitSend_manual_no_increment :
    (commitSend exState (FormJob.manual (some "Oberarzt")) "m@x.ch" "S" "B" true).status
      = CommitStatus.sent ∧
    ¬ ((commitSend exState (FormJob.manual (some "Oberarzt")) "m@x.ch" "S" "B"
        true).state.stats.sent_count = exState.stats.sent_count + 1) := by
  decide

/-- C6 (amended): a successful manual send appends exactly one sent
record (with `job_title` defaulting to `Manual`) and clears the manual
draft; every other field of the state — including `stats.sent_count` —
is untouched. -/
theorem commitSend_manual_success (s : AppState) (t : Option String)
    (to_email subject body : String) (hatt : s.attachments ≠ []) :
    (commitSend s (FormJob.manual t) to_email subject body true).status = CommitStatus.sent ∧
    (commitSend s (FormJob.manual t) to_email subject body true).state =
      { s with
        sent_emails := s.sent_emails ++
          [{ recipient := to_email, subject := subject, body := body,
             job_title := t.getD "Manual" }],
        manual_email_content := none } := by
  have hEmpty : s.attachments.isEmpty = false := List.isEmpty_eq_false.mpr hatt
  constructor <;> simp [commitSend, hEmpty, formJobTitle]

/-- Witness for the amended C6 at the fresh state. -/
theorem commitSend_manual_success_witness :
    exState.attachments ≠ [] ∧
    (commitSend exState (FormJob.manual (some "Oberarzt")) "m@x.ch" "S" "B" true).state =
      { exState with
        sent_emails := exState.sent_emails ++
          [{ recipient := "m@x.ch", subject := "S", body := "B", job_title := "Oberarzt" }],
        manual_email_content := none } :=
  have hatt : exState.attachments ≠ [] := by decide
  ⟨hatt, (commitSend_manual_success exState (some "Oberarzt") "m@x.ch" "S" "B" hatt).2⟩

/-- C7: a manual-job send never changes `applied_jobs` or
`stats.skipped_count`, whatever the attachment list or the sender
outcome. -/
theorem commitSend_manual_frame (s : AppState) (t : Option String)
    (to_email subject body : String) (mailOk : Bool) :
    (commitSend s (FormJob.manual t) to_email subject body mailOk).state.applied_jobs
      = s.applied_jobs ∧
    (commitSend s (FormJob.manual t) to_email subject body mailOk).state.stats.skipped_count
      = s.stats.skipped_count := by
  cases h : s.attachments.isEmpty <;> cases mailOk <;> simp [commitSend, h]

/-- C8 counterexample: on a delimiter-free response the stored subject is
the fixed placeholder, not the empty string. -/
theorem parseComposer_placeholder_subject :
    ¬ ((parseComposerResult (some "hallo")).subject = "" ∧
       (parseComposerResult (some "hallo")).body = "hallo") := by
  decide

/-- C8 (amended): a non-empty composer response lacking the `|||`
delimiter is stored as subject = the fixed placeholder
`Bewerbung für die ausgeschriebene Position` and body = the full
response text; the parse is total, so nothing is raised. -/
theorem parseComposer_no_delim (r : String) (hne : r ≠ "") (hnd : hasDelim r = false) :
    parseComposerResult (some r) =
      { subject := "Bewerbung für die ausgeschriebene Position", body := r } := by
  have hcond : ¬ (r ≠ "" ∧ hasDelim r = true) := by
    intro h
    rw [hnd] at h
    exact Bool.noConfusion h.2
  simp only [parseComposerResult]
  rw [if_neg hcond, if_neg hne]

/-- Witness for the amended C8 at a concrete delimiter-free response. -/
theorem parseComposer_no_delim_witness :
    ("hallo" : String) ≠ "" ∧ hasDelim "hallo" = false ∧
    parseComposerResult (some "hallo") =
      { subject := "Bewerbung für die ausgeschriebene Position", body := "hallo" } :=
  ⟨by decide, by decide, parseComposer_no_delim "hallo" (by decide) (by decide)⟩

/-- C9: for successfully extracted (non-empty) CV text, the stored text
is the extraction itself when one of the characters
`à`, `é`, `â`, `ç` occurs among its first 500 characters, and the
translation collaborator's output on the extraction otherwise. -/
theorem classifyCvText_heuristic (translate : String → Option String) (r : String)
    (hne : r ≠ "") :
    (hasAccentChar (pyTake r 500) = true → classifyCvText translate (some r) = some r) ∧
    (hasAccentChar (pyTake r 500) = false → classifyCvText translate (some r) = translate r) := by
  constructor <;> intro h <;> simp [classifyCvText, hne, h]

/-- Witness for C9: an accented French text is kept, a plain English
text is routed through the translator. -/
theorem classifyCvText_heuristic_witness :
    ("médecin à Genève" : String) ≠ "" ∧
    hasAccentChar (pyTake "médecin à Genève" 500) = true ∧
    classifyCvText (fun s => some ("DE " ++ s)) (some "médecin à Genève") =
      some "médecin à Genève" ∧
    ("Experienced physician" : String) ≠ "" ∧
    hasAccentChar (pyTake "Experienced physician" 500) = false ∧
    classifyCvText (fun s => some ("DE " ++ s)) (some "Experienced physician") =
      (fun s => some ("DE " ++ s)) "Experienced physician" :=
  ⟨by decide, by decide,
   (classifyCvText_heuristic (fun s => some ("DE " ++ s)) "médecin à Genève"
     (by decide)).1 (by decide),
   by decide, by decide,
   (classifyCvText_heuristic (fun s => some ("DE " ++ s)) "Experienced physician"
     (by decide)).2 (by decide)⟩

theorem takeWhile_until_comma (l1 l2 : List Char) (h : ',' ∉ l1) :
    (l1 ++ ',' :: l2).takeWhile (fun c => c != ',') = l1 := by
  induction l1 with
  | nil => simp [List.takeWhile_cons]
  | cons a t ih =>
      have ha : (a != ',') = true := by
        rw [bne_iff_ne]
        intro e
        exact h (e ▸ List.mem_cons_self a t)
      have ht : ',' ∉ t := fun hm => h (List.mem_cons_of_mem a hm)
      simp [List.takeWhile_cons, ha, ih ht]

/-- C10: for a selected catalog row the prefilled recipient is the
contact cell (a string, by selectability), stripped and truncated at the
first comma: it equals `split(",")[0]` of the strip, contains no comma,
is a prefix of the stripped cell, and when the stripped cell is
`l1 ++ "," ++ rest` with comma-free `l1`, exactly `l1` is kept and the
rest is dropped. -/
theorem mkDetails_contact_truncation (applied : List String)
    (catalog : List CsvRow) (idx : Nat) (row : CsvRow)
    (hsel : selectNext applied catalog = some (idx, row)) :
    ∃ cell, row.application_contact_email = some cell ∧
      (mkDetails idx row).contact_email = firstCommaField (pyStrip cell) ∧
      ',' ∉ (mkDetails idx row).contact_email.toList ∧
      ((mkDetails idx row).contact_email.toList <+: (pyStrip cell).toList) ∧
      (∀ l1 l2, (pyStrip cell).toList = l1 ++ ',' :: l2 → ',' ∉ l1 →
        (mkDetails idx row).contact_email.toList = l1) := by
  have hfind : List.find? (fun p => selectable applied p.1 p.2) catalog.enum
      = some (idx, row) := hsel
  have hp := List.find?_some hfind
  have hok := selectable_emailOk hp
  cases hcell : row.application_contact_email with
  | none =>
      rw [hcell] at hok
      simp [emailOk] at hok
  | some cellStr =>
      have hcontact : (mkDetails idx row).contact_email = firstCommaField (pyStrip cellStr) := by
        simp [mkDetails, hcell, pyStr]
      have hlist : (firstCommaField (pyStrip cellStr)).toList
          = (pyStrip cellStr).toList.takeWhile (fun c => c != ',') := rfl
      refine ⟨cellStr, rfl, hcontact, ?_, ?_, ?_⟩
      · rw [hcontact, hlist]
        intro hm
        have h2 := List.mem_takeWhile_imp hm
        simp at h2
      · rw [hcontact, hlist]
        exact List.takeWhile_prefix _
      · intro l1 l2 heq hno
        rw [hcontact, hlist, heq]
        exact takeWhile_until_comma l1 l2 hno

/-- Witness for C10: with job 0 applied, the scan selects job 2, whose
cell is a comma-separated list; the prefill keeps only the first
address. -/
theorem mkDetails_contact_truncation_witness :
    selectNext ["0"] exCatalog = some (2, exRow2) ∧
    (∃ cell, exRow2.application_contact_email = some cell ∧
      (mkDetails 2 exRow2).contact_email = firstCommaField (pyStrip cell) ∧
      ',' ∉ (mkDetails 2 exRow2).contact_email.toList ∧
      ((mkDetails 2 exRow2).contact_email.toList <+: (pyStrip cell).toList) ∧
      (∀ l1 l2, (pyStrip cell).toList = l1 ++ ',' :: l2 → ',' ∉ l1 →
        (mkDetails 2 exRow2).contact_email.toList = l1)) ∧
    (mkDetails 2 exRow2).contact_email = "b@y.ch" :=
  have hsel : selectNext ["0"] exCatalog = some (2, exRow2) := by decide
  ⟨hsel, mkDetails_contact_truncation ["0"] exCatalog 2 exRow2 hsel, by decide⟩
